import Mathlib

/-
Verification of the gh_mirror repository (src/gh_mirror.py) against its
natural-language specification.  The Python source is shallowly embedded:
pure control flow becomes Lean functions, the unbounded pagination loop is
given explicit fuel, fallible external calls return Except values, and the
mutable shelf cache, filesystem and git configuration become explicit state
values threaded through the functions.
-/

set_option maxHeartbeats 1000000

/-- Owner object of a repository descriptor (only the login field is read). -/
structure Owner where
  login : String
deriving Repr, DecidableEq

/-- Repository descriptor as delivered by the remote listing API.  Fields are
exactly the ones the program reads.  Nullable string fields are modelled as
strings, with the empty string playing the role of an absent value, matching
the truthiness tests the source performs on them. -/
structure GhRepo where
  full_name : String
  name : String
  owner : Owner
  description : String
  default_branch : String
  homepage : String
  clone_url : String
  git_url : String
  ssh_url : String
  html_url : String
deriving Repr, DecidableEq

/-- The shelve cache, holding at most the one key the program uses. -/
structure ShelfCache where
  user_repos : Option (List GhRepo)
deriving Repr, DecidableEq

/-- Embeds the renewal decision of _renew_cache (lines 59-62):
any([argp.renew_cache, not shelf]).  An empty shelf is falsy. -/
def shouldRenew (force : Bool) (shelf : ShelfCache) : Bool :=
  force || shelf.user_repos.isNone

/-- Embeds the while loop of _renew_cache (lines 67-76).  The page counter is
incremented, the page is requested, a non-200 status raises UserWarning with
the (status, payload) pair, the payload is appended to the accumulator, and an
empty payload ends the loop.  The loop is unbounded in the source, so it takes
explicit fuel here; none means the fuel ran out before the loop ended.  The
second component of a finished run lists the page numbers requested, in
request order. -/
def renewLoop (api : Nat → Nat × List GhRepo) (acc : List GhRepo) (page : Nat) :
    Nat → Option (Except (Nat × List GhRepo) (List GhRepo) × List Nat)
  | 0 => none
  | fuel + 1 =>
    let pg := page + 1
    let r := api pg
    if r.1 ≠ 200 then some (.error r, [pg])
    else
      let acc2 := acc ++ r.2
      if r.2 = [] then some (.ok acc2, [pg])
      else
        match renewLoop api acc2 pg fuel with
        | none => none
        | some (res, tr) => some (res, pg :: tr)

/-- Embeds _renew_cache (lines 55-77).  The shelf write on line 77 happens only
after the loop has finished without raising; on an error the shelf is returned
untouched.  The result also carries the list of requested page numbers. -/
def renew_cache (force : Bool) (api : Nat → Nat × List GhRepo) (shelf : ShelfCache)
    (fuel : Nat) :
    Option (Except (Nat × List GhRepo) Unit × ShelfCache × List Nat) :=
  if shouldRenew force shelf then
    match renewLoop api [] 0 fuel with
    | none => none
    | some (.error e, tr) => some (.error e, shelf, tr)
    | some (.ok repos, tr) => some (.ok (), { shelf with user_repos := some repos }, tr)
  else some (.ok (), shelf, [])

/-- The page numbers page+1, page+2, ..., page+k, in order. -/
def pageSeq (page : Nat) : Nat → List Nat
  | 0 => []
  | k + 1 => (page + 1) :: pageSeq (page + 1) k

/-- Concatenation of the payloads of pages page+1, ..., page+k, in order. -/
def concatPages (api : Nat → Nat × List GhRepo) (page : Nat) : Nat → List GhRepo
  | 0 => []
  | k + 1 => (api (page + 1)).2 ++ concatPages api (page + 1) k

lemma renewLoop_error_spec (api : Nat → Nat × List GhRepo) :
    ∀ (k page : Nat) (acc : List GhRepo) (fuel : Nat), k + 1 ≤ fuel →
      (∀ i, page < i → i ≤ page + k → (api i).1 = 200 ∧ (api i).2 ≠ []) →
      (api (page + k + 1)).1 ≠ 200 →
      renewLoop api acc page fuel =
        some (.error (api (page + k + 1)), pageSeq page (k + 1)) := by
  intro k
  induction k with
  | zero =>
    intro page acc fuel hf hmid herr
    match fuel, hf with
    | f + 1, _ =>
      rw [Nat.add_zero] at herr
      simp only [renewLoop, pageSeq]
      rw [if_pos herr]
  | succ k ih =>
    intro page acc fuel hf hmid herr
    match fuel, hf with
    | f + 1, hf =>
      have h1 : (api (page + 1)).1 = 200 ∧ (api (page + 1)).2 ≠ [] :=
        hmid (page + 1) (by omega) (by omega)
      simp only [renewLoop]
      rw [if_neg (by simp [h1.1]), if_neg h1.2]
      have hrec := ih (page + 1) (acc ++ (api (page + 1)).2) f (by omega)
        (fun i hi1 hi2 => hmid i (by omega) (by omega))
        (by have : page + 1 + k + 1 = page + (k + 1) + 1 := by omega
            rw [this]; exact herr)
      rw [hrec]
      have : page + 1 + k + 1 = page + (k + 1) + 1 := by omega
      rw [this]
      rfl

lemma renewLoop_ok_spec (api : Nat → Nat × List GhRepo) :
    ∀ (k page : Nat) (acc : List GhRepo) (fuel : Nat), k + 1 ≤ fuel →
      (∀ i, page < i → i ≤ page + k → (api i).1 = 200 ∧ (api i).2 ≠ []) →
      api (page + k + 1) = (200, []) →
      renewLoop api acc page fuel =
        some (.ok (acc ++ concatPages api page k), pageSeq page (k + 1)) := by
  intro k
  induction k with
  | zero =>
    intro page acc fuel hf hmid hend
    match fuel, hf with
    | f + 1, _ =>
      rw [Nat.add_zero] at hend
      simp only [renewLoop, pageSeq, concatPages]
      rw [if_neg (by simp [hend]), if_pos (by simp [hend])]
      simp [hend]
  | succ k ih =>
    intro page acc fuel hf hmid hend
    match fuel, hf with
    | f + 1, hf =>
      have h1 : (api (page + 1)).1 = 200 ∧ (api (page + 1)).2 ≠ [] :=
        hmid (page + 1) (by omega) (by omega)
      simp only [renewLoop]
      rw [if_neg (by simp [h1.1]), if_neg h1.2]
      have hrec := ih (page + 1) (acc ++ (api (page + 1)).2) f (by omega)
        (fun i hi1 hi2 => hmid i (by omega) (by omega))
        (by have : page + 1 + k + 1 = page + (k + 1) + 1 := by omega
            rw [this]; exact hend)
      rw [hrec]
      simp only [concatPages, pageSeq, List.append_assoc]

/-- Sample descriptor used by concrete witness instantiations. -/
def sampleRepo : GhRepo :=
  { full_name := "owner/repo"
    name := "repo"
    owner := { login := "owner" }
    description := "demo repository"
    default_branch := "master"
    homepage := ""
    clone_url := "https://github.com/owner/repo.git"
    git_url := "git://github.com/owner/repo.git"
    ssh_url := "git@github.com:owner/repo.git"
    html_url := "https://github.com/owner/repo" }

/-- Claim C1: if, during cache renewal, a page request returns a non-200
status while every earlier page returned 200 with a nonempty payload, then
the renewal ends with the UserWarning error carrying the (status, payload)
pair, and the shelf cache is exactly its pre-attempt value; the page numbers
requested are 1..k and no page list is written to the cache. -/
theorem renew_cache_error_preserves_cache (force : Bool)
    (api : Nat → Nat × List GhRepo) (shelf : ShelfCache) (k fuel : Nat)
    (hre : shouldRenew force shelf = true)
    (hk : 1 ≤ k) (hfuel : k ≤ fuel)
    (hprev : ∀ i, 1 ≤ i → i < k → (api i).1 = 200 ∧ (api i).2 ≠ [])
    (herr : (api k).1 ≠ 200) :
    renew_cache force api shelf fuel =
      some (.error ((api k).1, (api k).2), shelf, pageSeq 0 k) := by
  obtain ⟨k0, rfl⟩ : ∃ k0, k = k0 + 1 := ⟨k - 1, by omega⟩
  have hloop := renewLoop_error_spec api k0 0 [] fuel (by omega)
    (fun i hi1 hi2 => hprev i (by omega) (by omega))
    (by rw [Nat.zero_add]; exact herr)
  rw [Nat.zero_add] at hloop
  simp only [renew_cache, hre, if_true, hloop]

/-- Claim C1 witness: with page 1 fine and page 2 returning 403, the run
raises with (403, payload) and the pre-existing cache entry survives. -/
theorem renew_cache_error_preserves_cache_witness :
    renew_cache true (fun i => if i = 1 then (200, [sampleRepo]) else (403, []))
        { user_repos := some [sampleRepo] } 2 =
      some (.error (403, []), { user_repos := some [sampleRepo] }, [1, 2]) :=
  renew_cache_error_preserves_cache true
    (fun i => if i = 1 then (200, [sampleRepo]) else (403, []))
    { user_repos := some [sampleRepo] } 2 2 rfl (by omega) (by omega)
    (by intro i h1 h2
        have : i = 1 := by omega
        subst this
        exact ⟨rfl, by simp⟩)
    (by decide)

/-- Claim C2: when every page up to the first empty page n returns status 200,
renewal requests exactly pages 1, 2, ..., n in that order, stops at page n
(the first empty page), and writes to the cache the concatenation of the
payloads of pages 1..n-1 in order. -/
theorem renew_cache_concatenates_pages (force : Bool)
    (api : Nat → Nat × List GhRepo) (shelf : ShelfCache) (n fuel : Nat)
    (hre : shouldRenew force shelf = true)
    (hn : 1 ≤ n) (hfuel : n ≤ fuel)
    (hprev : ∀ i, 1 ≤ i → i < n → (api i).1 = 200 ∧ (api i).2 ≠ [])
    (hempty : api n = (200, [])) :
    renew_cache force api shelf fuel =
      some (.ok (), { shelf with user_repos := some (concatPages api 0 (n - 1)) },
        pageSeq 0 n) := by
  obtain ⟨k0, rfl⟩ : ∃ k0, n = k0 + 1 := ⟨n - 1, by omega⟩
  have hloop := renewLoop_ok_spec api k0 0 [] fuel (by omega)
    (fun i hi1 hi2 => hprev i (by omega) (by omega))
    (by rw [Nat.zero_add]; exact hempty)
  simp only [renew_cache, hre, if_true, hloop, List.nil_append, Nat.add_sub_cancel]

/-- Claim C2 witness: two nonempty pages followed by the empty page 3 yield
the two payloads concatenated in order, with pages 1, 2, 3 requested. -/
theorem renew_cache_concatenates_pages_witness :
    renew_cache true (fun i => if i ≤ 2 then (200, [sampleRepo]) else (200, []))
        { user_repos := none } 3 =
      some (.ok (), { user_repos := some [sampleRepo, sampleRepo] }, [1, 2, 3]) :=
  renew_cache_concatenates_pages true
    (fun i => if i ≤ 2 then (200, [sampleRepo]) else (200, []))
    { user_repos := none } 3 3 rfl (by omega) (by omega)
    (by intro i h1 h2
        have hle : i ≤ 2 := by omega
        simp [hle])
    (by decide)

/-- Python str.startswith, modelled on the character lists of the strings. -/
def pyStartswith (s pre : String) : Bool :=
  pre.data.isPrefixOf s.data

/-- Embeds the descriptor loop of main (lines 149-151): a descriptor whose
full_name does not start with the prefix argument is skipped with continue;
the others are processed in catalog order.  The returned list is the sequence
of descriptors the loop body processes, in processing order. -/
def processedRepos (pre : String) : List GhRepo → List GhRepo
  | [] => []
  | d :: rest =>
    if pyStartswith d.full_name pre then d :: processedRepos pre rest
    else processedRepos pre rest

/-- Claim C3: the orchestrator processes exactly the subsequence of cached
descriptors whose full_name starts with the prefix, in catalog order, and the
empty prefix selects every descriptor. -/
theorem processedRepos_eq_filter (pre : String) (repos : List GhRepo) :
    processedRepos pre repos =
        repos.filter (fun d => pyStartswith d.full_name pre) ∧
      processedRepos "" repos = repos := by
  constructor
  · induction repos with
    | nil => rfl
    | cons d rest ih =>
      simp [processedRepos, List.filter_cons, ih]
  · induction repos with
    | nil => rfl
    | cons d rest ih =>
      have hstart : pyStartswith d.full_name "" = true := by simp [pyStartswith]
      simp only [processedRepos, hstart, if_true, ih]

/-- State of one local bare repository on disk. -/
structure RepoState where
  history : List String
  bare : Bool
deriving Repr, DecidableEq

/-- The local filesystem, as a finite map from paths to repositories. -/
abbrev LocalFS := List (String × RepoState)

def fsGet : LocalFS → String → Option RepoState
  | [], _ => none
  | (q, r) :: rest, p => if q = p then some r else fsGet rest p

def fsPut : LocalFS → String → RepoState → LocalFS
  | [], p, r => [(p, r)]
  | (q, s) :: rest, p, r => if q = p then (p, r) :: rest else (q, s) :: fsPut rest p r

/-- os.path.join for the two-argument uses in the source: no separator is
inserted when the first component already ends with one. -/
def pyPathJoin (a b : String) : String :=
  if a.data.getLast? = some '/' then a ++ b else a ++ "/" ++ b

/-- Embeds _git_checkout (lines 114-134).  Modelled from the spec: the
gitpython collaborator raises NoSuchPathError from gitpython.Repo when no
repository exists at the path, and Repo.clone_from materialises the remote
history at the path with the bare flag; these externals are modelled as the
fsGet lookup and the fsPut write below.  The result is the filesystem after
the call, the path of the returned repository handle, and the number of
clone_from invocations performed. -/
def git_checkout (checkout_dir : String) (remote : String → List String)
    (fs : LocalFS) (d : GhRepo) : LocalFS × String × Nat :=
  let path := pyPathJoin checkout_dir d.full_name
  match fsGet fs path with
  | some _ => (fs, path, 0)
  | none => (fsPut fs path { history := remote d.clone_url, bare := true }, path, 1)

/-- Claim C4: when a repository already exists at checkout_dir/full_name the
resolver returns a handle to that path without cloning and without touching
the filesystem (so the existing history is intact); when none exists it
performs exactly one clone, from the descriptor clone_url, into that path,
with the bare flag set. -/
theorem git_checkout_clone_at_most_once (checkout_dir : String)
    (remote : String → List String) (fs : LocalFS) (d : GhRepo) :
    (∀ r, fsGet fs (pyPathJoin checkout_dir d.full_name) = some r →
      git_checkout checkout_dir remote fs d =
        (fs, pyPathJoin checkout_dir d.full_name, 0)) ∧
    (fsGet fs (pyPathJoin checkout_dir d.full_name) = none →
      git_checkout checkout_dir remote fs d =
        (fsPut fs (pyPathJoin checkout_dir d.full_name)
            { history := remote d.clone_url, bare := true },
          pyPathJoin checkout_dir d.full_name, 1) ∧
      fsGet (git_checkout checkout_dir remote fs d).1
          (pyPathJoin checkout_dir d.full_name) =
        some { history := remote d.clone_url, bare := true }) := by
  constructor
  · intro r hr
    simp [git_checkout, hr]
  · intro hn
    have hmain : git_checkout checkout_dir remote fs d =
        (fsPut fs (pyPathJoin checkout_dir d.full_name)
            { history := remote d.clone_url, bare := true },
          pyPathJoin checkout_dir d.full_name, 1) := by
      simp [git_checkout, hn]
    refine ⟨hmain, ?_⟩
    rw [hmain]
    have : ∀ (l : LocalFS) (p : String) (r : RepoState),
        fsGet (fsPut l p r) p = some r := by
      intro l p r
      induction l with
      | nil => simp [fsPut, fsGet]
      | cons hd tl ih =>
        obtain ⟨q, s⟩ := hd
        by_cases hq : q = p
        · simp [fsPut, fsGet, hq]
        · simp [fsPut, fsGet, hq, ih]
    exact this fs _ _

/-- A filesystem that already holds a mirror of sampleRepo. -/
def sampleFS : LocalFS :=
  [("/var/lib/git/owner/repo", { history := ["c0"], bare := true })]

/-- Claim C4 witness: with the mirror present nothing is cloned and the state
is untouched; with it absent exactly one bare clone of clone_url appears. -/
theorem git_checkout_clone_at_most_once_witness :
    git_checkout "/var/lib/git/" (fun _ => ["c1"]) sampleFS sampleRepo =
        (sampleFS, "/var/lib/git/owner/repo", 0) ∧
      fsGet (git_checkout "/var/lib/git/" (fun _ => ["c1"]) [] sampleRepo).1
          "/var/lib/git/owner/repo" =
        some { history := ["c1"], bare := true } :=
  ⟨(git_checkout_clone_at_most_once "/var/lib/git/" (fun _ => ["c1"])
      sampleFS sampleRepo).1 { history := ["c0"], bare := true } (by decide),
    ((git_checkout_clone_at_most_once "/var/lib/git/" (fun _ => ["c1"])
      [] sampleRepo).2 (by decide)).2⟩

/-- A Python value as it can arrive in the progress callback arguments. -/
inductive PyVal where
  | vNone
  | vInt (n : Int)
  | vStr (s : String)
deriving Repr, DecidableEq

/-- The Python exceptions that the percent computation can raise. -/
inductive PyErr where
  | typeError
  | valueError
  | zeroDivisionError
deriving Repr, DecidableEq

/-- Python int(x) on the modelled values: an int passes through, a string is
parsed (ValueError when malformed), None raises TypeError. -/
def pyInt : PyVal → Except PyErr Int
  | .vInt n => .ok n
  | .vNone => .error .typeError
  | .vStr s =>
    match s.toInt? with
    | some n => .ok n
    | none => .error .valueError

/-- What the progress line shows in place of the percentage. -/
inductive ProgressShown where
  | indeterminate
  | percent (p : Int)
deriving Repr, DecidableEq

/-- Embeds the percent computation of _git_clone_progress (lines 99-103):
percent starts as the indeterminate marker, then the try block assigns
int(cur_count) // int(max_count) * 100, and only ValueError is caught.
Python // on ints is floor division and raises ZeroDivisionError on a zero
divisor; neither TypeError nor ZeroDivisionError is caught, so those
propagate out of the callback. -/
def gitCloneProgressPercent (cur mx : PyVal) : Except PyErr ProgressShown :=
  match pyInt cur with
  | .error .valueError => .ok .indeterminate
  | .error e => .error e
  | .ok c =>
    match pyInt mx with
    | .error .valueError => .ok .indeterminate
    | .error e => .error e
    | .ok m =>
      if m = 0 then .error .zeroDivisionError
      else .ok (.percent (Int.fdiv c m * 100))

/-- Claim C8 is false of the code: at cur_count=50, max_count=100 the callback
prints 0, not the percentage complete 100*50/100 = 50, because the source
computes (int(cur) // int(max)) * 100; and with max_count absent (None, the
default for that parameter) int(None) raises TypeError, which the
except-ValueError handler does not catch, so the callback raises instead of
printing the indeterminate marker. -/
theorem gitCloneProgressPercent_bug :
    gitCloneProgressPercent (.vInt 50) (.vInt 100) = .ok (.percent 0) ∧
      Int.fdiv (100 * 50) 100 = 50 ∧
      gitCloneProgressPercent (.vInt 5) .vNone = .error .typeError := by
  refine ⟨rfl, by decide, rfl⟩

/-- The git configuration of a mirror: the declared section names, and the
(section, key) to value entries.  Matching configparser, setting a key that is
present replaces it in place and setting a new key appends it. -/
structure GitConfig where
  sections : List String
  entries : List ((String × String) × String)
deriving Repr, DecidableEq

def getEntry : List ((String × String) × String) → (String × String) → Option String
  | [], _ => none
  | (k0, v0) :: rest, k => if k0 = k then some v0 else getEntry rest k

def setEntry : List ((String × String) × String) → (String × String) → String →
    List ((String × String) × String)
  | [], k, v => [(k, v)]
  | (k0, v0) :: rest, k, v =>
    if k0 = k then (k, v) :: rest else (k0, v0) :: setEntry rest k v

def cfgGet (c : GitConfig) (sec key : String) : Option String :=
  getEntry c.entries (sec, key)

def cfgSet (c : GitConfig) (sec key val : String) : GitConfig :=
  { c with entries := setEntry c.entries (sec, key) val }

def hasSection (c : GitConfig) (sec : String) : Bool :=
  decide (sec ∈ c.sections)

def addSection (c : GitConfig) (sec : String) : GitConfig :=
  { c with sections := c.sections ++ [sec] }

/-- A set call on the configuration write session.  The configuration write
layer is an external collaborator that can fail (the error taxonomy of the
spec has a configuration-write-error class), so the call is parameterised by
an oracle telling which (section, key, value) writes raise; a raising write
returns the triple as the exception payload. -/
def cfgSetF (fails : String → String → String → Bool) (c : GitConfig)
    (sec key val : String) : Except (String × String × String) GitConfig :=
  if fails sec key val then .error (sec, key, val) else .ok (cfgSet c sec key val)

/-- Embeds the body of the configuration write session of main
(lines 162-187): ensure the cgit section exists, then set defbranch, desc,
name, owner and the space-joined clone-url, then set homepage only when the
descriptor homepage is truthy, and set enable-html-serving to the string
"true" only when default_branch equals gh-pages.  The first failing set
aborts the sequence with its exception. -/
def sessionBody (fails : String → String → String → Bool) (d : GhRepo)
    (c0 : GitConfig) : Except (String × String × String) GitConfig := do
  let c := if hasSection c0 "cgit" then c0 else addSection c0 "cgit"
  let c ← cfgSetF fails c "cgit" "defbranch" d.default_branch
  let c ← cfgSetF fails c "cgit" "desc" d.description
  let c ← cfgSetF fails c "cgit" "name" d.name
  let c ← cfgSetF fails c "cgit" "owner" d.owner.login
  let c ← cfgSetF fails c "cgit" "clone-url"
    (String.intercalate " " [d.git_url, d.ssh_url, d.clone_url])
  let c ← if d.homepage ≠ "" then cfgSetF fails c "cgit" "homepage" d.homepage
    else pure c
  let c ← if d.default_branch = "gh-pages" then
      cfgSetF fails c "cgit" "enable-html-serving" "true"
    else pure c
  return c

/-- The state of a local mirror that the synchronization step touches. -/
structure MirrorState where
  daemon_export : Bool
  description : String
  config : GitConfig
deriving Repr, DecidableEq

/-- Result of one synchronization step: the mirror afterwards, whether
git_config.release() was reached, and the exception if one was raised. -/
structure SyncOut where
  mirror : MirrorState
  released : Bool
  err : Option (String × String × String)
deriving Repr, DecidableEq

/-- The oracle for runs in which no configuration write fails. -/
def noFail : String → String → String → Bool := fun _ _ _ => false

/-- Embeds the metadata synchronization step of main (lines 156-188):
daemon_export and description are assigned first, then the configuration
write session runs; git_config.release() is the next statement after the
conditional sets, so it is reached only when no set raised.  GitPython
persists the writer changes at release time, so on the error path the mirror
keeps its previous configuration. -/
def syncStep (fails : String → String → String → Bool) (d : GhRepo)
    (m : MirrorState) : SyncOut :=
  let m1 : MirrorState := { m with daemon_export := true, description := d.description }
  match sessionBody fails d m1.config with
  | .ok cfg => { mirror := { m1 with config := cfg }, released := true, err := none }
  | .error e => { mirror := m1, released := false, err := some e }

/-- The section-ensuring statement at the head of the write session. -/
def ensureSection (c : GitConfig) : GitConfig :=
  if hasSection c "cgit" then c else addSection c "cgit"

/-- The (key, value) pairs the session writes into the cgit section, in write
order, as a function of the descriptor. -/
def cgitWrites (d : GhRepo) : List (String × String) :=
  [("defbranch", d.default_branch),
   ("desc", d.description),
   ("name", d.name),
   ("owner", d.owner.login),
   ("clone-url", String.intercalate " " [d.git_url, d.ssh_url, d.clone_url])] ++
  (if d.homepage ≠ "" then [("homepage", d.homepage)] else []) ++
  (if d.default_branch = "gh-pages" then [("enable-html-serving", "true")] else [])

/-- Folding a list of cgit writes over a configuration. -/
def applyWrites : GitConfig → List (String × String) → GitConfig
  | c, [] => c
  | c, (k, v) :: ws => applyWrites (cfgSet c "cgit" k v) ws

/-- The pure result of a session in which no write fails. -/
def plainSync (d : GhRepo) (c : GitConfig) : GitConfig :=
  applyWrites (ensureSection c) (cgitWrites d)

lemma getEntry_setEntry_same (l : List ((String × String) × String))
    (k : String × String) (v : String) : getEntry (setEntry l k v) k = some v := by
  induction l with
  | nil => simp [setEntry, getEntry]
  | cons hd tl ih =>
    obtain ⟨k0, v0⟩ := hd
    by_cases h : k0 = k
    · simp [setEntry, getEntry, h]
    · simp [setEntry, getEntry, h, ih]

lemma getEntry_setEntry_other (l : List ((String × String) × String))
    (k q : String × String) (v : String) (h : q ≠ k) :
    getEntry (setEntry l k v) q = getEntry l q := by
  induction l with
  | nil => simp [setEntry, getEntry, Ne.symm h]
  | cons hd tl ih =>
    obtain ⟨k0, v0⟩ := hd
    by_cases hk : k0 = k
    · subst hk
      simp [setEntry, getEntry, Ne.symm h]
    · simp only [setEntry, if_neg hk]
      by_cases hq : k0 = q
      · simp [getEntry, hq]
      · simp [getEntry, hq, ih]

lemma setEntry_absorb (l : List ((String × String) × String))
    (k : String × String) (v : String) (h : getEntry l k = some v) :
    setEntry l k v = l := by
  induction l with
  | nil => simp [getEntry] at h
  | cons hd tl ih =>
    obtain ⟨k0, v0⟩ := hd
    by_cases hk : k0 = k
    · simp only [getEntry, if_pos hk] at h
      obtain rfl : v0 = v := by injection h
      simp [setEntry, hk]
    · simp only [getEntry, if_neg hk] at h
      simp [setEntry, hk, ih h]

lemma getEntry_setEntry_isSome (l : List ((String × String) × String))
    (k q : String × String) (v : String) (h : (getEntry l q).isSome = true) :
    (getEntry (setEntry l k v) q).isSome = true := by
  by_cases hq : q = k
  · subst hq
    simp [getEntry_setEntry_same]
  · rw [getEntry_setEntry_other l k q v hq]
    exact h

lemma applyWrites_append (c : GitConfig) (ws1 ws2 : List (String × String)) :
    applyWrites c (ws1 ++ ws2) = applyWrites (applyWrites c ws1) ws2 := by
  induction ws1 generalizing c with
  | nil => rfl
  | cons hd tl ih =>
    obtain ⟨k, v⟩ := hd
    simp [applyWrites, ih]

lemma applyWrites_sections (c : GitConfig) (ws : List (String × String)) :
    (applyWrites c ws).sections = c.sections := by
  induction ws generalizing c with
  | nil => rfl
  | cons hd tl ih =>
    obtain ⟨k, v⟩ := hd
    simp [applyWrites, ih, cfgSet]

lemma cfgGet_applyWrites_other (c : GitConfig) (ws : List (String × String))
    (s k : String) (h : ∀ w ∈ ws, ¬(s = "cgit" ∧ k = w.1)) :
    cfgGet (applyWrites c ws) s k = cfgGet c s k := by
  induction ws generalizing c with
  | nil => rfl
  | cons hd tl ih =>
    obtain ⟨k0, v0⟩ := hd
    have hne : (s, k) ≠ (("cgit" : String), k0) := by
      intro hx
      exact h (k0, v0) (List.mem_cons_self _ _) ⟨congrArg Prod.fst hx, congrArg Prod.snd hx⟩
    simp only [applyWrites]
    rw [ih _ (fun w hw => h w (List.mem_cons_of_mem _ hw))]
    exact getEntry_setEntry_other _ _ _ _ hne

lemma cfgGet_applyWrites_isSome (c : GitConfig) (ws : List (String × String))
    (s k : String) (h : (cfgGet c s k).isSome = true) :
    (cfgGet (applyWrites c ws) s k).isSome = true := by
  induction ws generalizing c with
  | nil => exact h
  | cons hd tl ih =>
    obtain ⟨k0, v0⟩ := hd
    simp only [applyWrites]
    exact ih _ (getEntry_setEntry_isSome _ _ _ _ h)

lemma cfgGet_applyWrites_mem (c : GitConfig) (ws : List (String × String))
    (k v : String) (hnd : (ws.map Prod.fst).Nodup) (hmem : (k, v) ∈ ws) :
    cfgGet (applyWrites c ws) "cgit" k = some v := by
  induction ws generalizing c with
  | nil => simp at hmem
  | cons hd tl ih =>
    obtain ⟨k0, v0⟩ := hd
    simp only [List.map_cons, List.nodup_cons] at hnd
    rcases List.mem_cons.mp hmem with heq | htl
    · obtain ⟨rfl, rfl⟩ : k0 = k ∧ v0 = v := by
        constructor
        · exact (congrArg Prod.fst heq).symm
        · exact (congrArg Prod.snd heq).symm
      simp only [applyWrites]
      rw [cfgGet_applyWrites_other]
      · exact getEntry_setEntry_same _ _ _
      · intro w hw hx
        exact hnd.1 (hx.2 ▸ List.mem_map_of_mem Prod.fst hw)
    · exact ih _ hnd.2 htl

lemma applyWrites_absorb (c : GitConfig) (ws : List (String × String))
    (h : ∀ w ∈ ws, cfgGet c "cgit" w.1 = some w.2) : applyWrites c ws = c := by
  induction ws with
  | nil => rfl
  | cons hd tl ih =>
    obtain ⟨k0, v0⟩ := hd
    have hset : cfgSet c "cgit" k0 v0 = c := by
      have habs := setEntry_absorb c.entries ("cgit", k0) v0
        (h (k0, v0) (List.mem_cons_self _ _))
      simp [cfgSet, habs]
    simp only [applyWrites, hset]
    exact ih (fun w hw => h w (List.mem_cons_of_mem _ hw))

lemma cgitWrites_keys_nodup (d : GhRepo) : ((cgitWrites d).map Prod.fst).Nodup := by
  unfold cgitWrites
  by_cases hh : d.homepage = "" <;> by_cases hb : d.default_branch = "gh-pages" <;>
    simp [hh, hb]

lemma sessionBody_noFail (d : GhRepo) (c : GitConfig) :
    sessionBody noFail d c = .ok (plainSync d c) := by
  by_cases hh : d.homepage = "" <;> by_cases hb : d.default_branch = "gh-pages" <;>
    simp [sessionBody, plainSync, ensureSection, cgitWrites, cfgSetF, noFail,
      hh, hb, applyWrites, applyWrites_append, bind, Except.bind, pure, Except.pure]

lemma syncStep_noFail_config (d : GhRepo) (m : MirrorState) :
    (syncStep noFail d m).mirror.config = plainSync d m.config := by
  simp [syncStep, sessionBody_noFail]

lemma cfgGet_ensureSection (c : GitConfig) (s k : String) :
    cfgGet (ensureSection c) s k = cfgGet c s k := by
  unfold ensureSection
  by_cases h : hasSection c "cgit" <;> simp [h, cfgGet, addSection]

lemma hasSection_plainSync (d : GhRepo) (c : GitConfig) :
    hasSection (plainSync d c) "cgit" = true := by
  unfold plainSync hasSection
  rw [applyWrites_sections]
  unfold ensureSection
  by_cases h : hasSection c "cgit"
  · simp only [h, if_true]
    simpa [hasSection] using h
  · simp [h, addSection]

lemma plainSync_idem (d : GhRepo) (c : GitConfig) :
    plainSync d (plainSync d c) = plainSync d c := by
  have hsec : ensureSection (plainSync d c) = plainSync d c := by
    unfold ensureSection
    rw [hasSection_plainSync]
    simp
  show applyWrites (ensureSection (plainSync d c)) (cgitWrites d) = plainSync d c
  rw [hsec]
  apply applyWrites_absorb
  intro w hw
  obtain ⟨k, v⟩ := w
  exact cfgGet_applyWrites_mem _ _ k v (cgitWrites_keys_nodup d) hw

/-- Claim C7: the metadata synchronization step is idempotent; running it a
second time on the mirror state the first run produced gives exactly the same
mirror state (daemon_export flag, description and full configuration). -/
theorem syncStep_idempotent (d : GhRepo) (m : MirrorState) :
    syncStep noFail d ((syncStep noFail d m).mirror) = syncStep noFail d m := by
  simp [syncStep, sessionBody_noFail, plainSync_idem]

/-- The failure oracle used to drive the configuration write layer into an
error on the desc set call. -/
def failDescWrite : String → String → String → Bool := fun _ key _ => key == "desc"

/-- A mirror with an empty configuration. -/
def freshMirror : MirrorState :=
  { daemon_export := false, description := "", config := { sections := [], entries := [] } }

/-- A mirror whose cgit section still carries the pages-serving flag from an
earlier synchronization against a gh-pages default branch. -/
def staleMirror : MirrorState :=
  { daemon_export := true, description := "old"
    config := { sections := ["cgit"]
                entries := [(("cgit", "enable-html-serving"), "true")] } }

/-- A mirror carrying an unrelated core section entry. -/
def coreMirror : MirrorState :=
  { daemon_export := false, description := ""
    config := { sections := ["core"]
                entries := [(("core", "sharedrepository"), "1")] } }

/-- The sample descriptor with a gh-pages default branch and a homepage. -/
def pagesRepo : GhRepo :=
  { sampleRepo with default_branch := "gh-pages"
                    homepage := "https://owner.github.io/repo" }

/-- The sample descriptor with a main default branch and no homepage. -/
def mainRepo : GhRepo :=
  { sampleRepo with default_branch := "main" }

/-- Claim C5 is false of the code: when a configuration set call raises after
config_writer() has been acquired, the exception propagates and
git_config.release() is never reached, because the write session is not a
context manager and has no try/finally; the literal string conditions on
lines 162 and 164 are always-true placeholders, not scoping constructs.
Here the desc write fails and the run ends with the session still open. -/
theorem syncStep_session_leak :
    (syncStep failDescWrite sampleRepo freshMirror).err =
        some ("cgit", "desc", "demo repository") ∧
      (syncStep failDescWrite sampleRepo freshMirror).released = false := by
  constructor <;> rfl

lemma cgitWrites_no_homepage (d : GhRepo) (hh : d.homepage = "") :
    ∀ w ∈ cgitWrites d, w.1 ≠ "homepage" := by
  intro w hw
  by_cases hb : d.default_branch = "gh-pages"
  · simp [cgitWrites, hh, hb] at hw
    rcases hw with rfl | rfl | rfl | rfl | rfl | rfl <;> simp
  · simp [cgitWrites, hh, hb] at hw
    rcases hw with rfl | rfl | rfl | rfl | rfl <;> simp

lemma cgitWrites_no_flag (d : GhRepo) (hb : d.default_branch ≠ "gh-pages") :
    ∀ w ∈ cgitWrites d, w.1 ≠ "enable-html-serving" := by
  intro w hw
  by_cases hh : d.homepage = ""
  · simp [cgitWrites, hh, hb] at hw
    rcases hw with rfl | rfl | rfl | rfl | rfl <;> simp
  · simp [cgitWrites, hh, hb] at hw
    rcases hw with rfl | rfl | rfl | rfl | rfl | rfl <;> simp

/-- Claim C6, amended: starting from a mirror whose configuration does not
already hold the cgit homepage key or the pages-serving flag, after the
synchronization step the homepage key is present with the descriptor homepage
exactly when that homepage is non-empty, and the enable-html-serving flag
equals the string "true" when default_branch is gh-pages and is absent for
any other branch.  (Unqualified, the claim is false: the step never deletes
keys, so a pre-existing flag survives a branch change — see the
counterexample.) -/
theorem syncStep_homepage_pages_flag (d : GhRepo) (m : MirrorState)
    (hh0 : cfgGet m.config "cgit" "homepage" = none)
    (hf0 : cfgGet m.config "cgit" "enable-html-serving" = none) :
    (d.homepage ≠ "" →
      cfgGet (syncStep noFail d m).mirror.config "cgit" "homepage" = some d.homepage) ∧
    (d.homepage = "" →
      cfgGet (syncStep noFail d m).mirror.config "cgit" "homepage" = none) ∧
    (d.default_branch = "gh-pages" →
      cfgGet (syncStep noFail d m).mirror.config "cgit" "enable-html-serving" =
        some "true") ∧
    (d.default_branch ≠ "gh-pages" →
      cfgGet (syncStep noFail d m).mirror.config "cgit" "enable-html-serving" = none) := by
  have hcfg := syncStep_noFail_config d m
  refine ⟨?_, ?_, ?_, ?_⟩
  · intro hh
    simp only [hcfg, plainSync]
    exact cfgGet_applyWrites_mem _ _ _ _ (cgitWrites_keys_nodup d)
      (by simp [cgitWrites, hh])
  · intro hh
    simp only [hcfg, plainSync]
    have hother : ∀ w ∈ cgitWrites d, ¬("cgit" = "cgit" ∧ "homepage" = w.1) := by
      intro w hw hx
      exact cgitWrites_no_homepage d hh w hw hx.2.symm
    rw [cfgGet_applyWrites_other _ _ _ _ hother, cfgGet_ensureSection]
    exact hh0
  · intro hb
    simp only [hcfg, plainSync]
    exact cfgGet_applyWrites_mem _ _ _ _ (cgitWrites_keys_nodup d)
      (by simp [cgitWrites, hb])
  · intro hb
    simp only [hcfg, plainSync]
    have hother : ∀ w ∈ cgitWrites d,
        ¬("cgit" = "cgit" ∧ "enable-html-serving" = w.1) := by
      intro w hw hx
      exact cgitWrites_no_flag d hb w hw hx.2.symm
    rw [cfgGet_applyWrites_other _ _ _ _ hother, cfgGet_ensureSection]
    exact hf0

/-- Claim C6 witness: on a fresh mirror, a descriptor with a homepage and a
gh-pages default branch gets both the homepage key and the flag. -/
theorem syncStep_homepage_pages_flag_witness :
    cfgGet (syncStep noFail pagesRepo freshMirror).mirror.config "cgit" "homepage" =
        some "https://owner.github.io/repo" ∧
      cfgGet (syncStep noFail pagesRepo freshMirror).mirror.config "cgit"
          "enable-html-serving" =
        some "true" :=
  ⟨(syncStep_homepage_pages_flag pagesRepo freshMirror rfl rfl).1 (by decide),
    (syncStep_homepage_pages_flag pagesRepo freshMirror rfl rfl).2.2.1 rfl⟩

/-- Claim C6 counterexample: a mirror that still carries the pages-serving
flag is synchronized against a descriptor whose default branch is main; the
claim says the flag must then be absent, but the step never deletes keys, so
the flag is still present (and still "true") afterwards. -/
theorem syncStep_pages_flag_not_erased :
    mainRepo.default_branch ≠ "gh-pages" ∧
      cfgGet (syncStep noFail mainRepo staleMirror).mirror.config "cgit"
          "enable-html-serving" =
        some "true" := by
  constructor
  · decide
  · rfl

/-- Claim C10: the synchronization step only writes the daemon_export flag,
the description and cgit section keys: any entry in a section other than
cgit is unchanged, any cgit key the step does not write is unchanged, and an
entry that existed before is still present afterwards (keys are never
deleted). -/
theorem syncStep_frame (d : GhRepo) (m : MirrorState) (s k : String) :
    (s ≠ "cgit" →
      cfgGet (syncStep noFail d m).mirror.config s k = cfgGet m.config s k) ∧
    (k ∉ (cgitWrites d).map Prod.fst →
      cfgGet (syncStep noFail d m).mirror.config "cgit" k =
        cfgGet m.config "cgit" k) ∧
    (∀ v, cfgGet m.config s k = some v →
      (cfgGet (syncStep noFail d m).mirror.config s k).isSome = true) := by
  have hcfg := syncStep_noFail_config d m
  refine ⟨?_, ?_, ?_⟩
  · intro hs
    simp only [hcfg, plainSync]
    rw [cfgGet_applyWrites_other _ _ _ _ (fun w _ hx => hs hx.1), cfgGet_ensureSection]
  · intro hk
    simp only [hcfg, plainSync]
    have hother : ∀ w ∈ cgitWrites d, ¬("cgit" = "cgit" ∧ k = w.1) := by
      intro w hw hx
      exact hk (by rw [hx.2]; exact List.mem_map_of_mem Prod.fst hw)
    rw [cfgGet_applyWrites_other _ _ _ _ hother, cfgGet_ensureSection]
  · intro v hv
    simp only [hcfg, plainSync]
    apply cfgGet_applyWrites_isSome
    rw [cfgGet_ensureSection]
    simp [hv]

/-- Claim C10 witness: the core section entry of a mirror survives the
synchronization step unchanged and undeleted. -/
theorem syncStep_frame_witness :
    cfgGet (syncStep noFail mainRepo coreMirror).mirror.config "core"
        "sharedrepository" =
      cfgGet coreMirror.config "core" "sharedrepository" ∧
    (cfgGet (syncStep noFail mainRepo coreMirror).mirror.config "core"
        "sharedrepository").isSome = true :=
  ⟨(syncStep_frame mainRepo coreMirror "core" "sharedrepository").1 (by decide),
    (syncStep_frame mainRepo coreMirror "core" "sharedrepository").2.2 "1" rfl⟩

/-- The arguments the fetch call of main (lines 192-202) passes to the remote
fetch of the gitpython collaborator. -/
structure FetchCall where
  refspec : List String
  force : Bool
deriving Repr, DecidableEq

/-- Embeds the fetch invocation of main: the refspec list literal and the
force keyword exactly as the source passes them. -/
def mainFetchCall : FetchCall :=
  { refspec :=
      ["+refs/heads/*:refs/remotes/origin/*",
       "+refs/tags/*:refs/tags/*",
       "+refs/notes/*:refs/notes/*"]
    force := true }

/-- One per-ref fetch outcome, as printed by main lines 207-212. -/
structure FetchResult where
  refName : String
  refPath : String
  hexsha : String
deriving Repr, DecidableEq

/-- Modelled from the spec: the incremental fetch engine contract of the
collaborator says the fetch returns one FetchResult per ref the transport
reports as updated, in the order the transport reports them; the transport
report is the input list of (ref name, ref path, commit id) triples. -/
def fetchEngine (updated : List (String × String × String)) : List FetchResult :=
  updated.map fun u => { refName := u.1, refPath := u.2.1, hexsha := u.2.2 }

/-- Claim C9: the fetch is one operation whose refspec set is exactly the
three fixed strings with force enabled, and the fetch result list has exactly
one element per transport-reported updated ref, never more. -/
theorem mainFetch_refspecs_and_results (updated : List (String × String × String)) :
    mainFetchCall.refspec =
        ["+refs/heads/*:refs/remotes/origin/*",
         "+refs/tags/*:refs/tags/*",
         "+refs/notes/*:refs/notes/*"] ∧
      mainFetchCall.refspec.length = 3 ∧
      mainFetchCall.force = true ∧
      (fetchEngine updated).length = updated.length := by
  refine ⟨rfl, rfl, rfl, ?_⟩
  simp [fetchEngine]
